import Mathlib

/-!
Shallow embedding of the grist-sync-plugin core (field-mapping engine,
error classifier, Grist destination client) and proofs about it.

The embedding models JavaScript values by an inductive JSON-like type.
Scope of the value model: own enumerable properties (assoc lists in
insertion order), array index/length properties, and string
index/length properties; prototype-inherited properties are outside
the model.  Machine floats are modelled abstractly: a number is either
an integer (`JsNumber.int`) or a non-integer carried by its JavaScript
string rendering (`JsNumber.nonInt`).
-/

namespace GristSync

/-- A JavaScript number: integer-valued or not (`Number.isInteger`). -/
inductive JsNumber where
  | int (i : Int)
  | nonInt (s : String)
deriving DecidableEq, Repr

/-- A JavaScript value as handled by the mapping module. -/
inductive JsValue where
  | null
  | undef
  | bool (b : Bool)
  | num (n : JsNumber)
  | str (s : String)
  | date (iso : String)
  | arr (elems : List JsValue)
  | obj (fields : List (String × JsValue))
deriving Repr

/-- JavaScript truthiness test (negated): `!v`. -/
def JsValue.falsy : JsValue → Bool
  | .null => true
  | .undef => true
  | .bool b => !b
  | .num (.int i) => i == 0
  | .num (.nonInt s) => s == "NaN"
  | .str s => s == ""
  | _ => false

/-- The value is `null` or `undefined`. -/
def isNullish : JsValue → Bool
  | .null => true
  | .undef => true
  | _ => false

/-- First-match association-list lookup, the model of JS own-property
access and of `Map.get`. -/
def assocLookup {α : Type} : List (String × α) → String → Option α
  | [], _ => none
  | (k, v) :: rest, key => if k = key then some v else assocLookup rest key

/-- A canonical array-index string ("0", "17", ... without leading zeros). -/
def parseIndex (s : String) : Option Nat :=
  if s.length > 0 && s.data.all Char.isDigit && (s == "0" || s.front != '0') then
    s.toNat?
  else none

/-- JavaScript property read `current[key]` for the values the mapper
walks: object own properties, array indices and `length`, string
indices and `length`; every other read yields `undefined`. -/
def jsGet : JsValue → String → JsValue
  | .obj fields, k => (assocLookup fields k).getD .undef
  | .arr xs, k =>
      if k == "length" then .num (.int xs.length)
      else match parseIndex k with
        | some i => (xs.get? i).getD .undef
        | none => .undef
  | .str s, k =>
      if k == "length" then .num (.int s.length)
      else match parseIndex k with
        | some i => ((s.data.get? i).map (fun c => JsValue.str (String.mk [c]))).getD .undef
        | none => .undef
  | _, _ => (.undef)

/-- JS `path.split(sep)` for a one-character separator, by structural
recursion (`cur` is the current segment, reversed). -/
def splitOnCharAux (sep : Char) : List Char → List Char → List String
  | [], cur => [String.mk cur.reverse]
  | c :: rest, cur =>
      if c = sep then String.mk cur.reverse :: splitOnCharAux sep rest []
      else splitOnCharAux sep rest (c :: cur)

/-- JS `s.split(sep)` (single-character separator). -/
def jsSplit (s : String) (sep : Char) : List String :=
  splitOnCharAux sep s.data []

/-- The `for (const key of keys)` loop of `getNestedValue`. -/
def walkKeys : JsValue → List String → JsValue
  | current, [] => current
  | current, k :: ks =>
      if isNullish current then .undef else walkKeys (jsGet current k) ks

/-- `getNestedValue(obj, path)` from `src/utils/mapping.ts`. -/
def getNestedValue (obj : JsValue) (path : String) : JsValue :=
  if path = "" ∨ obj.falsy then .undef
  else walkKeys obj (jsSplit path '.')

/-- JS string rendering of a number (`String(n)`). -/
def jsNumberToString : JsNumber → String
  | .int i => toString i
  | .nonInt s => s

/-- The JSON literal `JSON.stringify` prints for a number
(non-finite numbers print as `null`). -/
def jsonNumberLiteral : JsNumber → String
  | .int i => toString i
  | .nonInt s =>
      if s == "NaN" || s == "Infinity" || s == "-Infinity" then "null" else s

/-- JSON string quoting; the embedding escapes quotes and backslashes
(the only escapes the proofs ever exercise). -/
def quoteJson (s : String) : String :=
  "\"" ++ s.data.foldr (fun c acc =>
    (if c = '"' then "\\\"" else if c = '\\' then "\\\\" else String.mk [c]) ++ acc) "" ++ "\""

mutual

/-- `JSON.stringify` on tree-shaped (acyclic by construction) values;
`none` models the JS result `undefined`. -/
def jsonStringify : JsValue → Option String
  | .null => some "null"
  | .undef => none
  | .bool b => some (if b then "true" else "false")
  | .num n => some (jsonNumberLiteral n)
  | .str s => some (quoteJson s)
  | .date iso => some (quoteJson iso)
  | .arr xs => some ("[" ++ String.intercalate "," (jsonStringifyElems xs) ++ "]")
  | .obj fields =>
      some ("\x7b" ++ String.intercalate "," (jsonStringifyFields fields) ++ "\x7d")

/-- Array elements: a JS-`undefined` element prints as `null`. -/
def jsonStringifyElems : List JsValue → List String
  | [] => []
  | x :: xs => ((jsonStringify x).getD "null") :: jsonStringifyElems xs

/-- Object entries: a key whose value stringifies to JS `undefined` is omitted. -/
def jsonStringifyFields : List (String × JsValue) → List String
  | [] => []
  | (k, v) :: rest =>
      (match jsonStringify v with
        | some sv => [quoteJson k ++ ":" ++ sv]
        | none => []) ++ jsonStringifyFields rest

end

/-- JS `String(new Date(...))` rendering is locale/environment
dependent; the embedding represents it by the date's ISO string. -/
def dateToDisplayString (iso : String) : String := iso

/-- One array element inside `serializeValue`: objects and arrays are
JSON-stringified, everything else goes through `String(item)`. -/
def serializeArrayItem : JsValue → String
  | .arr xs => (jsonStringify (.arr xs)).getD "null"
  | .obj fields => (jsonStringify (.obj fields)).getD "null"
  | .null => "null"
  | .undef => "undefined"
  | .bool b => if b then "true" else "false"
  | .num n => jsNumberToString n
  | .str s => s
  | .date iso => dateToDisplayString iso

/-- `serializeValue(value)` from `src/utils/mapping.ts` (tree values). -/
def serializeValue : JsValue → JsValue
  | .null => .null
  | .undef => .undef
  | .date iso => .str iso
  | .arr [] => .str ""
  | .arr (x :: xs) =>
      .str (String.intercalate ";" ((x :: xs).map serializeArrayItem))
  | .obj fields => .str ((jsonStringify (.obj fields)).getD "undefined")
  | v => v

/-- `FieldMapping` from `src/utils/mapping.ts`.  `enabled` is an
optional boolean; `transform` an optional function value. -/
structure FieldMapping where
  gristColumn : String
  apiField : String
  enabled : Option Bool := none
  transform : Option (JsValue → JsValue) := none

/-- JS object assignment `acc[k] = v`: updates a present key in place
(keeping its position), appends an absent one. -/
def setField : List (String × JsValue) → String → JsValue → List (String × JsValue)
  | [], k, v => [(k, v)]
  | (k', v') :: rest, k, v =>
      if k' = k then (k', v) :: rest else (k', v') :: setField rest k v

/-- The value a mapping stores: the custom transform when attached,
otherwise the automatic serialization. -/
def mappedValue (apiRecord : JsValue) (m : FieldMapping) : JsValue :=
  match m.transform with
  | some f => f (getNestedValue apiRecord m.apiField)
  | none => serializeValue (getNestedValue apiRecord m.apiField)

/-- Body of the `for (const mapping of mappings)` loop of `transformRecord`. -/
def applyMapping (apiRecord : JsValue) (acc : List (String × JsValue))
    (m : FieldMapping) : List (String × JsValue) :=
  if m.gristColumn = "" ∨ m.apiField = "" then acc
  else if m.enabled = some false then acc
  else setField acc m.gristColumn (mappedValue apiRecord m)

/-- `transformRecord(apiRecord, mappings)` from `src/utils/mapping.ts`. -/
def transformRecord (apiRecord : JsValue) (mappings : List FieldMapping) :
    List (String × JsValue) :=
  mappings.foldl (applyMapping apiRecord) []

/-- `isValidMapping(mapping)` from `src/utils/mapping.ts`. -/
def isValidMapping (m : FieldMapping) : Bool :=
  m.gristColumn != "" && m.apiField != ""

/-- `getValidMappings(mappings)` from `src/utils/mapping.ts`. -/
def getValidMappings (mappings : List FieldMapping) : List FieldMapping :=
  mappings.filter isValidMapping

/-- `typeof v === 'object' && v` (objects, arrays and dates; all truthy). -/
def isObjectLike : JsValue → Bool
  | .obj _ => true
  | .arr _ => true
  | .date _ => true
  | _ => false

/-- Recursion condition of `extractAllKeys`:
`typeof v === 'object' && v !== null && !Array.isArray(v)`. -/
def recursesInto : JsValue → Bool
  | .obj _ => true
  | .date _ => true
  | _ => false

/-- Own enumerable entries in insertion order (`for (const key in obj)`
with the `hasOwnProperty` guard); dates have none. -/
def enumEntries : JsValue → List (String × JsValue)
  | .obj fields => fields
  | .arr xs => ((List.range xs.length).zip xs).map (fun p => (toString p.1, p.2))
  | _ => []

/-- The key loop of `extractAllKeys`, abstracted over the recursive
call `f` applied to object-like children (at the decremented depth). -/
def extractEntriesWith (f : JsValue → String → List String) :
    List (String × JsValue) → String → List String
  | [], _ => []
  | (k, child) :: rest, pre =>
      let path := if pre = "" then k else pre ++ "." ++ k
      path :: ((if recursesInto child then f child path else []) ++
        extractEntriesWith f rest pre)

/-- `extractAllKeys(obj, prefix, maxDepth)` from `src/utils/mapping.ts`,
by structural recursion on the depth. -/
def extractAllKeys (v : JsValue) (pre : String) : Nat → List String
  | 0 => []
  | d + 1 =>
      if isObjectLike v then
        extractEntriesWith (fun child path => extractAllKeys child path d) (enumEntries v) pre
      else []

/-- JS `s.replace(/\./g, c)`: every dot replaced. -/
def replaceDots (s : String) (c : Char) : String :=
  String.mk (s.data.map (fun ch => if ch = '.' then c else ch))

/-- The `criticalColumns` reserved-name table of
`generateMappingsFromApiData`. -/
def criticalColumns : List (String × String) :=
  [("id", "api_id"), ("createdAt", "createdAt"), ("updatedAt", "updatedAt")]

/-- `generateMappingsFromApiData(sampleData, defaultEnabled)` from
`src/utils/mapping.ts`.  Note the table lookup uses the whole dotted
path (`criticalColumns.get(apiField)`). -/
def generateMappingsFromApiData (sampleData : JsValue) (defaultEnabled : Bool) :
    List FieldMapping :=
  if !isObjectLike sampleData then []
  else
    (extractAllKeys sampleData "" 5).map (fun apiField =>
      let gristColumn := (assocLookup criticalColumns apiField).getD
        (replaceDots apiField '_')
      { gristColumn := gristColumn, apiField := apiField,
        enabled := some defaultEnabled, transform := none })

/-! Error classifier, from `src/utils/errorHandler.ts`.  A caught JS
error value is modelled by its `name`, `message` and optional `stack`;
every error thrown by the client paths under study is an `Error`
instance, so the model does not carry non-`Error` thrown values. -/

/-- A JavaScript `Error` value as inspected by the classifier. -/
structure JsError where
  name : String
  message : String
  stack : Option String := none
deriving DecidableEq, Repr

/-- `ErrorType` from `src/utils/errorHandler.ts`. -/
inductive ErrorType where
  | cors
  | network
  | unauthorized
  | forbidden
  | notFound
  | unprocessable
  | serverError
  | timeout
  | invalidJson
  | unknown
deriving DecidableEq, Repr

/-- `ErrorInfo` from `src/utils/errorHandler.ts`. -/
structure ErrorInfo where
  type : ErrorType
  title : String
  message : String
  explanation : String
  solutions : List String
  technicalDetails : Option String := none
deriving DecidableEq, Repr

/-- JS `s.toLowerCase()` (character-wise, structural). -/
def strToLower (s : String) : String :=
  String.mk (s.data.map Char.toLower)

/-- Prefix test on character lists. -/
def listIsPrefix : List Char → List Char → Bool
  | [], _ => true
  | _ :: _, [] => false
  | a :: as, b :: bs => a == b && listIsPrefix as bs

/-- Substring occurrence test on character lists. -/
def listContainsSub (pat : List Char) : List Char → Bool
  | [] => listIsPrefix pat []
  | c :: rest => listIsPrefix pat (c :: rest) || listContainsSub pat rest

/-- JS `s.includes(pat)`. -/
def strIncludes (s pat : String) : Bool :=
  listContainsSub pat.data s.data

/-- `isCorsError(error)` from `src/utils/errorHandler.ts`. -/
def isCorsError (e : JsError) : Bool :=
  let message := strToLower e.message
  strIncludes message "cors" ||
  strIncludes message "cross-origin" ||
  strIncludes message "access-control-allow-origin" ||
  (e.name == "TypeError" && strIncludes message "failed to fetch") ||
  (e.name == "TypeError" && strIncludes message "network request failed")

/-- `isNetworkError(error)` from `src/utils/errorHandler.ts`. -/
def isNetworkError (e : JsError) : Bool :=
  let message := strToLower e.message
  (e.name == "TypeError" && !isCorsError e) ||
  strIncludes message "network" ||
  strIncludes message "failed to fetch" ||
  strIncludes message "network request failed" ||
  strIncludes message "networkerror" ||
  strIncludes message "connection" ||
  strIncludes message "econnrefused" ||
  strIncludes message "offline"

/-- Maximal leading digit run. -/
def takeDigits : List Char → List Char
  | [] => []
  | c :: rest => if c.isDigit then c :: takeDigits rest else []

/-- Numeric value of a digit run (JS `parseInt` on the captured group). -/
def digitsToNat (ds : List Char) : Nat :=
  ds.foldl (fun acc c => acc * 10 + (c.toNat - '0'.toNat)) 0

/-- First match of the regex `HTTP (\d+)`: scans for the literal
`"HTTP "` followed by at least one digit and returns the number. -/
def findHttpStatusAux : List Char → Option Nat
  | [] => none
  | c :: rest =>
      if listIsPrefix "HTTP ".data (c :: rest) then
        let ds := takeDigits ((c :: rest).drop 5)
        if ds.isEmpty then findHttpStatusAux rest else some (digitsToNat ds)
      else findHttpStatusAux rest

/-- `message.match(/HTTP (\d+)/)` followed by `parseInt` on the group. -/
def findHttpStatus (s : String) : Option Nat :=
  findHttpStatusAux s.data

/-- JS `error.toString()` for `Error` values. -/
def jsErrorToString (e : JsError) : String :=
  if e.message = "" then e.name else e.name ++ ": " ++ e.message

/-- `analyzeHttpError(status, error, context)` from
`src/utils/errorHandler.ts`; the `switch` is rendered as an `if` chain. -/
def analyzeHttpError (status : Nat) (e : JsError) (context : String) : ErrorInfo :=
  if status = 401 then
    { type := .unauthorized
      title := "401 - Non autorisé"
      message := "Authentification requise ou token invalide"
      explanation := if context = "grist_sync" then
          "Le document Grist est privé et nécessite un token API, ou votre token est invalide."
        else "L'API nécessite une authentification que votre backend doit gérer."
      solutions := [
        (if context = "grist_sync" then
          "✓ Ajoutez un token API Grist valide dans la configuration"
        else "✓ Vérifiez que votre backend gère correctement l'authentification"),
        "✓ Vérifiez que le token n'a pas expiré",
        "✓ Vérifiez les permissions du token"]
      technicalDetails := some e.message }
  else if status = 403 then
    { type := .forbidden
      title := "403 - Accès interdit"
      message := "Permissions insuffisantes"
      explanation := if context = "grist_sync" then
          "Votre token API Grist n'a pas les permissions nécessaires pour modifier ce document ou cette table."
        else "Votre backend ou l'API distante refuse l'accès à cette ressource."
      solutions := [
        "✓ Vérifiez que vous avez les droits d'accès sur le document/table",
        (if context = "grist_sync" then
          "✓ Vérifiez les permissions du token API dans les paramètres Grist"
        else "✓ Contactez l'administrateur de l'API pour obtenir les permissions"),
        "✓ Assurez-vous que le token utilisé est le bon"]
      technicalDetails := some e.message }
  else if status = 404 then
    { type := .notFound
      title := "404 - Ressource introuvable"
      message := "Document, table ou URL introuvable"
      explanation := if context = "grist_sync" then
          "Le Document ID ou le Table ID spécifié n'existe pas, ou l'URL de l'API Grist est incorrecte."
        else "L'URL du backend est incorrecte ou la ressource n'existe pas."
      solutions := [
        (if context = "grist_sync" then
          "✓ Vérifiez que le Document ID est correct (dans l'URL Grist)"
        else "✓ Vérifiez que l'URL du backend est correcte"),
        (if context = "grist_sync" then
          "✓ Vérifiez que le Table ID correspond exactement au nom de la table (sensible à la casse)"
        else "✓ Vérifiez que l'endpoint existe"),
        (if context = "grist_sync" then
          "✓ Testez la connexion avec le bouton \"🔍 Tester la connexion Grist\""
        else "✓ Testez l'URL dans un navigateur ou avec un outil comme Postman")]
      technicalDetails := some e.message }
  else if status = 422 then
    { type := .unprocessable
      title := "422 - Données invalides"
      message := "Erreur de validation des données"
      explanation := "Les données envoyées ne respectent pas le format attendu par l'API."
      solutions := [
        "✓ Vérifiez que les types de données correspondent (texte, nombre, date, etc.)",
        "✓ Vérifiez que les colonnes Grist existent et sont correctement configurées",
        "✓ Vérifiez le mapping des champs entre l'API et Grist",
        "✓ Consultez le journal de synchronisation pour plus de détails"]
      technicalDetails := some e.message }
  else if status = 500 ∨ status = 502 ∨ status = 503 ∨ status = 504 then
    { type := .serverError
      title := toString status ++ " - Erreur serveur"
      message := "Le serveur a rencontré une erreur"
      explanation := if context = "grist_sync" then
          "Le serveur Grist a rencontré une erreur interne. Cela peut être temporaire."
        else "Votre backend ou l'API distante a rencontré une erreur interne."
      solutions := [
        "✓ Réessayez dans quelques instants",
        "✓ Vérifiez le statut du service (Grist ou votre backend)",
        "✓ Si le problème persiste, contactez le support",
        "✓ Consultez les logs du serveur pour plus d'informations"]
      technicalDetails := some e.message }
  else
    { type := .unknown
      title := "Erreur HTTP " ++ toString status
      message := "Le serveur a renvoyé une erreur " ++ toString status
      explanation := "Une erreur HTTP inattendue s'est produite."
      solutions := [
        "✓ Consultez la documentation de l'API",
        "✓ Vérifiez la console du navigateur pour plus de détails",
        "✓ Contactez le support si nécessaire"]
      technicalDetails := some e.message }

/-- Fall-through tail of `analyzeError` (JSON, timeout, unknown): the
branches reached when none of the CORS / network / HTTP detectors fire. -/
def analyzeErrorFallback (e : JsError) : ErrorInfo :=
  if strIncludes e.message "JSON" || strIncludes e.message "parse" then
    { type := .invalidJson
      title := "Erreur de format de données"
      message := "La réponse du serveur n'est pas au format JSON valide"
      explanation := "Le serveur a renvoyé des données qui ne peuvent pas être interprétées comme du JSON."
      solutions := [
        "✓ Vérifiez que l'URL pointe vers une API JSON",
        "✓ Vérifiez que le serveur renvoie bien du JSON et non du HTML ou du texte",
        "✓ Consultez la console du navigateur (F12) pour voir la réponse brute"]
      technicalDetails := some e.message }
  else if strIncludes (strToLower e.message) "timeout" then
    { type := .timeout
      title := "Délai d'attente dépassé"
      message := "Le serveur met trop de temps à répondre"
      explanation := "La requête a pris trop de temps et a été annulée."
      solutions := [
        "✓ Vérifiez que le serveur fonctionne correctement",
        "✓ Réessayez plus tard",
        "✓ Vérifiez qu'il n'y a pas de problème de performance côté serveur"]
      technicalDetails := some e.message }
  else
    { type := .unknown
      title := "Erreur inattendue"
      message := if e.message = "" then "Une erreur inconnue s'est produite" else e.message
      explanation := "Une erreur imprévue s'est produite. Consultez les détails techniques ci-dessous."
      solutions := [
        "✓ Vérifiez la console du navigateur (F12) pour plus de détails",
        "✓ Réessayez l'opération",
        "✓ Contactez le support si le problème persiste"]
      technicalDetails := some (e.stack.getD (jsErrorToString e)) }

/-- `analyzeError(error, context)` from `src/utils/errorHandler.ts`. -/
def analyzeError (e : JsError) (context : String) : ErrorInfo :=
  if isCorsError e then
    { type := .cors
      title := "Erreur CORS (Cross-Origin Resource Sharing)"
      message := "La requête a été bloquée par la politique CORS du navigateur"
      explanation := if context = "api_fetch" then
          "Votre backend n'autorise pas les requêtes depuis ce domaine. Les navigateurs bloquent les requêtes cross-origin pour des raisons de sécurité."
        else "L'API Grist ou votre backend n'autorise pas les requêtes depuis ce domaine."
      solutions := [
        "✓ Configurez votre backend pour autoriser les requêtes CORS depuis ce domaine",
        "✓ Ajoutez les headers CORS appropriés : Access-Control-Allow-Origin",
        "✓ Pour le développement local, utilisez un proxy ou configurez votre serveur",
        "⚠️ Évitez d'utiliser des extensions pour désactiver CORS en production"]
      technicalDetails := some (if e.message = "" then "CORS policy violation" else e.message) }
  else if isNetworkError e then
    { type := .network
      title := "Erreur de connexion réseau"
      message := "Impossible de se connecter au serveur"
      explanation := "Le serveur est injoignable. Cela peut être dû à une connexion internet interrompue, une URL incorrecte, ou un serveur hors ligne."
      solutions := [
        "✓ Vérifiez votre connexion internet",
        "✓ Vérifiez que l'URL est correcte et accessible",
        "✓ Vérifiez que le serveur est en ligne",
        "✓ Vérifiez qu'il n'y a pas de pare-feu bloquant la connexion"]
      technicalDetails := some (if e.message = "" then "Network request failed" else e.message) }
  else if strIncludes e.message "HTTP" then
    match findHttpStatus e.message with
    | some status => analyzeHttpError status e context
    | none => analyzeErrorFallback e
  else analyzeErrorFallback e

/-- `formatErrorShort(errorInfo)` from `src/utils/errorHandler.ts`. -/
def formatErrorShort (info : ErrorInfo) : String :=
  info.message ++ " - " ++ info.solutions.headD ""

/-! Grist destination client, from `src/utils/grist.ts`.  Network
effects are modelled by an environment (`NetEnv`) fixing the outcome
of each endpoint, and every operation returns the ordered list of API
calls it issued, the log lines it emitted through the optional `onLog`
callback, and its outcome (`Except` models `throw`). -/

/-- A destination row (`Record<string, any>`). -/
abbrev RowRecord := List (String × JsValue)

/-- `GristConfig` from `src/config.ts`. -/
structure GristConfig where
  docId : String
  tableId : String
  apiTokenGrist : Option String := none
  gristApiUrl : Option String := none
  autoCreateColumns : Option Bool := none

/-- The `fields` part of a Grist column (`GristColumn.fields`). -/
structure GristColumnFields where
  label : Option String := none
  type : Option String := none
  colId : String
deriving DecidableEq, Repr

/-- `GristColumn` from `src/utils/grist.ts`. -/
structure GristColumn where
  id : String
  fields : GristColumnFields
deriving DecidableEq, Repr

/-- Argument element of `GristClient.addColumns`
(`{id, label?, type?}`). -/
structure ColSpec where
  id : String
  label : Option String := none
  type : Option String := none
deriving DecidableEq, Repr

/-- An entry of the POST `/columns` body built by `addColumns`. -/
structure AddColReq where
  id : String
  colId : String
  label : String
  type : String
deriving DecidableEq, Repr

/-- One network request issued by the client, in issue order. -/
inductive ApiCall where
  | getColumns
  | addColumns (columns : List AddColReq)
  | postRecords (body : List RowRecord)
  | getRecords (limit : Option Nat)

/-- One line sent to the `onLog` callback. -/
structure LogEntry where
  message : String
  level : String
deriving DecidableEq, Repr

/-- Result of one client operation: issued calls, emitted logs, and
the returned/thrown outcome. -/
structure OpResult (α : Type) where
  calls : List ApiCall
  logs : List LogEntry
  outcome : Except JsError α

/-- The message of the re-thrown error in every client catch block:
`` `${errorInfo.message} - ${errorInfo.solutions[0]}` ``. -/
def classifiedShortMessage (info : ErrorInfo) : String :=
  info.message ++ " - " ++ info.solutions.headD ""

/-- Outcomes the environment assigns to each endpoint.  `getRecordsR`
carries the optional `records` field of the response body
(`data.records || []`). -/
structure NetEnv where
  getColumnsR : Except JsError (List GristColumn)
  addColumnsR : Except JsError Unit
  postRecordsR : Except JsError (List Nat)
  getRecordsR : Except JsError (Option (List RowRecord))

/-- `GristClient.getColumns()`: GET `/columns`; on failure re-throws
the classified short message, with no log side effect. -/
def getColumnsOp (env : NetEnv) : OpResult (List GristColumn) :=
  match env.getColumnsR with
  | .ok cols => ⟨[.getColumns], [], .ok cols⟩
  | .error e =>
      let info := analyzeError e "grist_sync"
      ⟨[.getColumns], [], .error ⟨"Error", classifiedShortMessage info, none⟩⟩

/-- JS `a || b` on an optional string whose empty value is falsy. -/
def orElseStr (o : Option String) (d : String) : String :=
  match o with
  | some s => if s = "" then d else s
  | none => d

/-- `GristClient.addColumns(columns)`: no-op on an empty list,
otherwise POST `/columns` with label defaulted to the id and type to
`'Text'`; on failure logs twice and re-throws the short message. -/
def addColumnsOp (env : NetEnv) (columns : List ColSpec) : OpResult Unit :=
  if columns = [] then ⟨[], [], .ok ()⟩
  else
    let req := columns.map (fun c =>
      AddColReq.mk c.id c.id (orElseStr c.label c.id) (orElseStr c.type "Text"))
    match env.addColumnsR with
    | .ok _ => ⟨[.addColumns req], [], .ok ()⟩
    | .error e =>
        let info := analyzeError e "grist_sync"
        ⟨[.addColumns req],
         [⟨info.title ++ ": " ++ info.message, "error"⟩,
          ⟨"💡 " ++ info.solutions.headD "", "error"⟩],
         .error ⟨"Error", classifiedShortMessage info, none⟩⟩

/-- The leading `YYYY-MM-DD` regex test of `inferColumnType`. -/
def dateRegexTest (s : String) : Bool :=
  match s.data with
  | a :: b :: c :: d :: '-' :: e :: f :: '-' :: g :: h :: _ =>
      a.isDigit && b.isDigit && c.isDigit && d.isDigit &&
      e.isDigit && f.isDigit && g.isDigit && h.isDigit
  | _ => false

/-- The scanning loop of `inferColumnType` over the (at most 10)
sampled records. -/
def inferColumnTypeGo (columnName : String) : List RowRecord → String
  | [] => "Text"
  | r :: rest =>
      match (assocLookup r columnName).getD .undef with
      | .null => inferColumnTypeGo columnName rest
      | .undef => inferColumnTypeGo columnName rest
      | .num (.int _) => "Int"
      | .num (.nonInt _) => "Numeric"
      | .bool _ => "Bool"
      | .str s => if dateRegexTest s then "DateTime" else "Text"
      | _ => "Text"

/-- `GristClient.inferColumnType(records, columnName)`. -/
def inferColumnType (records : List RowRecord) (columnName : String) : String :=
  inferColumnTypeGo columnName (records.take 10)

/-- Distinct keys across all records, in first-appearance order
(the `Set` built by `ensureColumnsExist`). -/
def dedupKeys (records : List RowRecord) : List String :=
  ((records.map (fun r => r.map Prod.fst)).flatten).foldl
    (fun acc k => if k ∈ acc then acc else acc ++ [k]) []

/-- `requiredColumns` minus `existingColumnIds`: the missing column
ids, in first-appearance order. -/
def missingColumns (records : List RowRecord) (existing : List GristColumn) : List String :=
  (dedupKeys records).filter (fun c => !(existing.map (fun col => col.fields.colId)).contains c)

/-- The `columnsToCreate` array: one spec per missing id, labelled by
the id, typed by `inferColumnType`. -/
def columnsToCreate (records : List RowRecord) (missing : List String) : List ColSpec :=
  missing.map (fun id => ColSpec.mk id (some id) (some (inferColumnType records id)))

/-- The warning log line of the `ensureColumnsExist` catch block. -/
def columnsWarning (e : JsError) : LogEntry :=
  ⟨"⚠️ Avertissement lors de la création automatique des colonnes: " ++ e.message, "error"⟩

/-- `GristClient.ensureColumnsExist(records)`: lists columns, diffs the
record keys against existing column ids, creates the missing columns,
and converts any failure into a warning log (`try`/`catch` swallowing). -/
def ensureColumnsExist (env : NetEnv) (records : List RowRecord) : OpResult Unit :=
  if records.isEmpty then ⟨[], [], .ok ()⟩
  else
    let log1 : LogEntry := ⟨"🔍 Vérification des colonnes existantes...", "info"⟩
    let rGet := getColumnsOp env
    match rGet.outcome with
    | .error e => ⟨rGet.calls, log1 :: rGet.logs ++ [columnsWarning e], .ok ()⟩
    | .ok existing =>
        let log2 : LogEntry :=
          ⟨"✓ " ++ toString existing.length ++ " colonne(s) existante(s) détectée(s)", "success"⟩
        let missing := missingColumns records existing
        if missing = [] then
          ⟨rGet.calls,
           [log1, log2, ⟨"✓ Toutes les colonnes nécessaires existent déjà", "success"⟩],
           .ok ()⟩
        else
          let log3 : LogEntry :=
            ⟨"➕ Création de " ++ toString missing.length ++ " colonne(s) manquante(s): " ++
              String.intercalate ", " missing, "info"⟩
          let rAdd := addColumnsOp env (columnsToCreate records missing)
          match rAdd.outcome with
          | .ok _ =>
              ⟨rGet.calls ++ rAdd.calls,
               [log1, log2, log3] ++ rAdd.logs ++ [⟨"✅ Colonnes créées avec succès!", "success"⟩],
               .ok ()⟩
          | .error e =>
              ⟨rGet.calls ++ rAdd.calls,
               [log1, log2, log3] ++ rAdd.logs ++ [columnsWarning e],
               .ok ()⟩

/-- `GristClient.addRecords(records)`: empty input throws immediately;
otherwise the column step runs unless `autoCreateColumns === false`,
then the records are POSTed; a POST failure is logged and re-thrown
with the classified short message. -/
def addRecords (env : NetEnv) (cfg : GristConfig) (records : List RowRecord) :
    OpResult (List Nat) :=
  if records.isEmpty then
    ⟨[], [], .error ⟨"Error", "Aucun enregistrement à ajouter", none⟩⟩
  else
    let ensure : OpResult Unit :=
      if cfg.autoCreateColumns ≠ some false then ensureColumnsExist env records
      else ⟨[], [], .ok ()⟩
    match ensure.outcome with
    | .error e => ⟨ensure.calls, ensure.logs, .error e⟩
    | .ok _ =>
        match env.postRecordsR with
        | .ok ids => ⟨ensure.calls ++ [.postRecords records], ensure.logs, .ok ids⟩
        | .error e =>
            let info := analyzeError e "grist_sync"
            ⟨ensure.calls ++ [.postRecords records],
             ensure.logs ++
               [⟨info.title ++ ": " ++ info.message, "error"⟩,
                ⟨"💡 " ++ info.solutions.headD "", "error"⟩],
             .error ⟨"Error", classifiedShortMessage info, none⟩⟩

/-- `GristClient.getRecords(limit?)`: GET `/records`; on success
returns `data.records || []`; on failure re-throws the classified
short message without any log call. -/
def getRecordsOp (env : NetEnv) (limit : Option Nat) : OpResult (List RowRecord) :=
  match env.getRecordsR with
  | .ok payload => ⟨[.getRecords limit], [], .ok (payload.getD [])⟩
  | .error e =>
      let info := analyzeError e "grist_sync"
      ⟨[.getRecords limit], [], .error ⟨"Error", classifiedShortMessage info, none⟩⟩

/-- Concrete environment for the column-creation scenario: one existing
column `id`; creation and insertion succeed. -/
def c2Env : NetEnv :=
  ⟨Except.ok [⟨"id", ⟨some "id", some "Int", "id"⟩⟩], Except.ok (),
   Except.ok [1, 2], Except.ok none⟩

/-- Records of the column-creation scenario: keys `id` and `score`,
whole-number scores. -/
def c2Records : List RowRecord :=
  [[("id", JsValue.num (JsNumber.int 1)), ("score", JsValue.num (JsNumber.int 85))],
   [("id", JsValue.num (JsNumber.int 2)), ("score", JsValue.num (JsNumber.int 92))]]

/-- Concrete environment whose record POST fails with an HTTP 500. -/
def c6Env : NetEnv :=
  ⟨Except.ok [⟨"id", ⟨some "id", some "Int", "id"⟩⟩], Except.ok (),
   Except.error ⟨"Error", "Erreur HTTP 500: boom", none⟩, Except.ok none⟩

/-- Records used with `c6Env`. -/
def c6Records : List RowRecord := [[("id", JsValue.num (JsNumber.int 1))]]

/-- Concrete environment whose record GET fails with an HTTP 404. -/
def c3FailureEnv : NetEnv :=
  ⟨Except.ok [], Except.ok (), Except.ok [],
   Except.error ⟨"Error", "Erreur HTTP 404: not found", none⟩⟩

/-- Concrete environment whose record GET fails with a timeout. -/
def c3WitnessEnv : NetEnv :=
  ⟨Except.ok [], Except.ok (), Except.ok [],
   Except.error ⟨"Error", "timeout hit", none⟩⟩

/-! Heap-based value model.  JavaScript objects are reference values
and may be self-referential; `JSON.stringify` throws a `TypeError`
("Converting circular structure to JSON") when it meets a cycle.  To
settle the totality claim about `serializeValue` the tree model above
is not enough, so here values may point into a heap of object, array
and date nodes, and the stringifier carries the path of visited
addresses exactly like the engine's cycle check.  Recursion is fuelled;
fuel `heap.length + 1` is never exhausted on any input the cycle check
lets through, because the visited path holds distinct addresses. -/

/-- A heap value: a primitive or a reference to a heap node. -/
inductive HVal where
  | null
  | undef
  | bool (b : Bool)
  | num (n : JsNumber)
  | str (s : String)
  | ref (a : Nat)
deriving DecidableEq, Repr

/-- A heap node: an object, an array or a date. -/
inductive HNode where
  | obj (fields : List (String × HVal))
  | arr (elems : List HVal)
  | date (iso : String)
deriving DecidableEq, Repr

/-- A heap: node addresses are list positions. -/
abbrev Heap := List HNode

/-- Addresses referenced directly by a value. -/
def valRefs : HVal → List Nat
  | .ref a => [a]
  | _ => []

/-- Addresses referenced directly by a node's children. -/
def nodeRefs : HNode → List Nat
  | .obj fields => (fields.map (fun kv => valRefs kv.2)).flatten
  | .arr xs => (xs.map valRefs).flatten
  | .date _ => []

/-- Object entries, abstracted over the stringifier `g` applied to each
value: entries stringifying to JS `undefined` are omitted, a thrown
error propagates from the first offending key. -/
def stringifyFieldsWith (g : HVal → Except String (Option String)) :
    List (String × HVal) → Except String (List String)
  | [] => .ok []
  | (k, v) :: rest => do
      let sv ← g v
      let restParts ← stringifyFieldsWith g rest
      match sv with
      | some s => .ok ((quoteJson k ++ ":" ++ s) :: restParts)
      | none => .ok restParts

/-- Array elements, abstracted over the stringifier `g`: a
JS-`undefined` element prints as `null`. -/
def stringifyElemsWith (g : HVal → Except String (Option String)) :
    List HVal → Except String (List String)
  | [] => .ok []
  | x :: xs => do
      let sv ← g x
      let rest ← stringifyElemsWith g xs
      .ok ((sv.getD "null") :: rest)

/-- `JSON.stringify` over the heap; `seen` is the path of object
addresses currently being expanded (the engine's circular check),
`none` models the JS result `undefined`.  Structural recursion on the
fuel, which is decremented at each node expansion; the callers pass
fuel `heap.length + 1`, which the cycle check never lets run out
because the visited path holds distinct addresses. -/
def jsonStringifyH (h : Heap) : Nat → List Nat → HVal → Except String (Option String)
  | _, _, .null => .ok (some "null")
  | _, _, .undef => .ok none
  | _, _, .bool b => .ok (some (if b then "true" else "false"))
  | _, _, .num n => .ok (some (jsonNumberLiteral n))
  | _, _, .str s => .ok (some (quoteJson s))
  | fuel, seen, .ref a =>
      if a ∈ seen then .error "Converting circular structure to JSON"
      else match h.get? a with
        | none => .ok (some "null")
        | some (.date iso) => .ok (some (quoteJson iso))
        | some (.obj fields) =>
            match fuel with
            | 0 => .error "out of fuel"
            | f + 1 => do
                let parts ← stringifyFieldsWith
                  (fun w => jsonStringifyH h f (a :: seen) w) fields
                .ok (some ("\x7b" ++ String.intercalate "," parts ++ "\x7d"))
        | some (.arr xs) =>
            match fuel with
            | 0 => .error "out of fuel"
            | f + 1 => do
                let parts ← stringifyElemsWith
                  (fun w => jsonStringifyH h f (a :: seen) w) xs
                .ok (some ("[" ++ String.intercalate "," parts ++ "]"))

/-- One array element inside `serializeValue` (heap version): object
and array references are JSON-stringified (each a fresh
`JSON.stringify` call, so with an empty visited path), everything else
goes through `String(item)`. -/
def serializeItemH (h : Heap) (item : HVal) : Except String String :=
  match item with
  | .ref b =>
      match h.get? b with
      | some (.date iso) => .ok (dateToDisplayString iso)
      | some (.obj _) =>
          match jsonStringifyH h (h.length + 1) [] item with
          | .ok r => .ok (r.getD "undefined")
          | .error e => .error e
      | some (.arr _) =>
          match jsonStringifyH h (h.length + 1) [] item with
          | .ok r => .ok (r.getD "undefined")
          | .error e => .error e
      | none => .ok "undefined"
  | .null => .ok "null"
  | .undef => .ok "undefined"
  | .bool b => .ok (if b then "true" else "false")
  | .num n => .ok (jsNumberToString n)
  | .str s => .ok s

/-- The `value.map(...)` of the array branch; the first thrown error
propagates. -/
def serializeItemsH (h : Heap) : List HVal → Except String (List String)
  | [] => .ok []
  | x :: xs => do
      let s ← serializeItemH h x
      let rest ← serializeItemsH h xs
      .ok (s :: rest)

/-- `serializeValue(value)` from `src/utils/mapping.ts` over the heap
model; `Except.error` models a thrown exception (only `JSON.stringify`
can throw here). -/
def serializeValueH (h : Heap) (v : HVal) : Except String HVal :=
  match v with
  | .null => .ok .null
  | .undef => .ok .undef
  | .ref a =>
      match h.get? a with
      | some (.date iso) => .ok (.str iso)
      | some (.arr xs) =>
          if xs.isEmpty then .ok (.str "")
          else do
            let parts ← serializeItemsH h xs
            .ok (.str (String.intercalate ";" parts))
      | some (.obj _) => do
          let r ← jsonStringifyH h (h.length + 1) [] (.ref a)
          .ok (.str (r.getD "undefined"))
      | none => .ok (.ref a)
  | .bool b => .ok (.bool b)
  | .num n => .ok (.num n)
  | .str s => .ok (.str s)

/-- A one-node cyclic heap: an object whose field `self` refers back to
the object itself. -/
def cyclicHeap : Heap := [HNode.obj [("self", HVal.ref 0)]]

/-- An acyclic two-node heap: `\x7buser: \x7bname: "Alice"\x7d\x7d`. -/
def acyclicHeap : Heap :=
  [HNode.obj [("user", HVal.ref 1)], HNode.obj [("name", HVal.str "Alice")]]

/-- A rank function witnessing that `acyclicHeap` is acyclic. -/
def acyclicRank : Nat → Nat := fun a => if a = 0 then 1 else 0

/-! Helper lemmas shared by the claim theorems. -/

theorem walkKeys_undef (ks : List String) : walkKeys JsValue.undef ks = JsValue.undef := by
  cases ks <;> simp [walkKeys, isNullish]

theorem setField_keys {l : List (String × JsValue)} {key k : String} {v : JsValue}
    (h : k ∈ (setField l key v).map Prod.fst) :
    k ∈ l.map Prod.fst ∨ k = key := by
  induction l with
  | nil => simpa [setField] using h
  | cons p rest ih =>
      rcases p with ⟨k', v'⟩
      by_cases hk : k' = key
      · left
        simpa [setField, hk] using h
      · simp only [setField, if_neg hk, List.map_cons, List.mem_cons] at h
        rcases h with h | h
        · left; simp [h]
        · rcases ih h with h' | h'
          · left; simp [h']
          · right; exact h'

theorem applyMapping_keys {rec : JsValue} {acc : List (String × JsValue)}
    {m : FieldMapping} {k : String}
    (h : k ∈ (applyMapping rec acc m).map Prod.fst) :
    k ∈ acc.map Prod.fst ∨
      (m.gristColumn = k ∧ m.enabled ≠ some false ∧ m.gristColumn ≠ "" ∧ m.apiField ≠ "") := by
  by_cases h1 : m.gristColumn = "" ∨ m.apiField = ""
  · left; simpa [applyMapping, h1] using h
  · by_cases h2 : m.enabled = some false
    · left; simpa [applyMapping, h1, h2] using h
    · rw [applyMapping, if_neg h1, if_neg h2] at h
      rcases setField_keys h with h' | h'
      · left; exact h'
      · right
        exact ⟨h'.symm, h2, fun hc => h1 (Or.inl hc), fun hc => h1 (Or.inr hc)⟩

theorem transform_foldl_keys (rec : JsValue) :
    ∀ (ms : List FieldMapping) (acc : List (String × JsValue)) (k : String),
      k ∈ ((ms.foldl (applyMapping rec) acc).map Prod.fst) →
      k ∈ acc.map Prod.fst ∨
        ∃ m ∈ ms, m.gristColumn = k ∧ m.enabled ≠ some false ∧
          m.gristColumn ≠ "" ∧ m.apiField ≠ "" := by
  intro ms
  induction ms with
  | nil => intro acc k h; left; simpa using h
  | cons m rest ih =>
      intro acc k h
      rcases ih (applyMapping rec acc m) k h with h' | ⟨m', hm', hp⟩
      · rcases applyMapping_keys h' with h'' | h''
        · left; exact h''
        · right; exact ⟨m, by simp, h''⟩
      · right; exact ⟨m', by simp [hm'], hp⟩

theorem applyMapping_invalid {rec : JsValue} {acc : List (String × JsValue)}
    {m : FieldMapping} (h : isValidMapping m = false) :
    applyMapping rec acc m = acc := by
  have h' : m.gristColumn = "" ∨ m.apiField = "" := by
    by_contra hc
    push_neg at hc
    simp [isValidMapping, hc.1, hc.2] at h
  simp [applyMapping, h']

theorem foldl_filter_valid (rec : JsValue) :
    ∀ (ms : List FieldMapping) (acc : List (String × JsValue)),
      (ms.filter isValidMapping).foldl (applyMapping rec) acc =
        ms.foldl (applyMapping rec) acc := by
  intro ms
  induction ms with
  | nil => intro acc; rfl
  | cons m rest ih =>
      intro acc
      cases hv : isValidMapping m with
      | true => simp [List.filter, hv, List.foldl, ih]
      | false => simp [List.filter, hv, List.foldl, ih, applyMapping_invalid hv]

theorem criticalColumns_lookup (p : String) :
    (assocLookup criticalColumns p).getD (replaceDots p '_') =
      if p = "id" then "api_id"
      else if p = "createdAt" then "createdAt"
      else if p = "updatedAt" then "updatedAt"
      else replaceDots p '_' := by
  by_cases h1 : p = "id"
  · subst h1; rfl
  · by_cases h2 : p = "createdAt"
    · subst h2; rfl
    · by_cases h3 : p = "updatedAt"
      · subst h3; rfl
      · have g1 : "id" ≠ p := fun h => h1 h.symm
        have g2 : "createdAt" ≠ p := fun h => h2 h.symm
        have g3 : "updatedAt" ≠ p := fun h => h3 h.symm
        simp [criticalColumns, assocLookup, g1, g2, g3, h1, h2, h3]

/-! Claim theorems. -/

/-- C7: `getNestedValue` splits the path on `.`, walks one key at a
time, and returns `undefined` as soon as an intermediate value is
null/undefined or a key is absent; the three documented examples hold.
It never throws: in the embedding it is a total function. -/
theorem C7_getNestedValue_contract :
    getNestedValue (.obj [("user", .obj [("name", .str "Alice")])]) "user.name" = .str "Alice"
    ∧ getNestedValue (.obj []) "a.b.c" = .undef
    ∧ getNestedValue .null "a" = .undef
    ∧ (∀ (path : String) (v : JsValue), path ≠ "" → v.falsy = false →
        getNestedValue v path = walkKeys v (jsSplit path '.'))
    ∧ (∀ (k : String) (ks : List String), walkKeys .null (k :: ks) = .undef)
    ∧ (∀ (k : String) (ks : List String), walkKeys .undef (k :: ks) = .undef)
    ∧ (∀ (fields : List (String × JsValue)) (k : String) (ks : List String),
        assocLookup fields k = none → walkKeys (.obj fields) (k :: ks) = .undef) := by
  refine ⟨rfl, rfl, rfl, ?_, ?_, ?_, ?_⟩
  · intro path v hp hv
    simp [getNestedValue, hp, hv]
  · intro k ks; simp [walkKeys, isNullish]
  · intro k ks; simp [walkKeys, isNullish]
  · intro fields k ks h
    simp [walkKeys, isNullish, jsGet, h, walkKeys_undef]

/-- Witness for C7 at concrete inputs. -/
theorem C7_witness :
    assocLookup ([("x", JsValue.null)]) "a" = none
    ∧ walkKeys (.obj [("x", JsValue.null)]) ["a", "b"] = .undef :=
  ⟨rfl, C7_getNestedValue_contract.2.2.2.2.2.2 [("x", JsValue.null)] "a" ["b"] rfl⟩

/-- C8: a disabled mapping (`enabled == false`) never contributes a key
to a transformed record: every key of the output comes from a mapping
that is enabled and has both sides non-empty. -/
theorem C8_disabled_mappings_never_appear (rec : JsValue) (mappings : List FieldMapping)
    (k : String) (hk : k ∈ (transformRecord rec mappings).map Prod.fst) :
    ∃ m ∈ mappings, m.gristColumn = k ∧ m.enabled ≠ some false ∧
      m.gristColumn ≠ "" ∧ m.apiField ≠ "" := by
  have := transform_foldl_keys rec mappings [] k hk
  simpa using this

/-- Witness for C8 at a concrete record and mapping list. -/
theorem C8_witness :
    ("Y" : String) ∈ (transformRecord (.obj [("a", .num (.int 1))])
        [⟨"X", "a", some false, none⟩, ⟨"Y", "a", some true, none⟩]).map Prod.fst
    ∧ ∃ m ∈ ([⟨"X", "a", some false, none⟩, ⟨"Y", "a", some true, none⟩] : List FieldMapping),
        m.gristColumn = "Y" ∧ m.enabled ≠ some false ∧ m.gristColumn ≠ "" ∧ m.apiField ≠ "" :=
  ⟨by simp [transformRecord, List.foldl, applyMapping, mappedValue, setField],
   C8_disabled_mappings_never_appear (.obj [("a", .num (.int 1))])
     [⟨"X", "a", some false, none⟩, ⟨"Y", "a", some true, none⟩] "Y"
     (by simp [transformRecord, List.foldl, applyMapping, mappedValue, setField])⟩

/-- C10: pre-filtering the mapping list to valid mappings does not
change the transformation result, because `transformRecord` itself
skips every mapping with an empty destination column or source field. -/
theorem C10_prefilter_agrees (rec : JsValue) (mappings : List FieldMapping) :
    transformRecord rec (getValidMappings mappings) = transformRecord rec mappings :=
  foldl_filter_valid rec mappings []

/-- Counterexample to C1: the reserved-name table is consulted with the
whole dotted path, not its leaf segment, so the nested path `user.id`
gets destination column `user_id`, not `api_id` as the claim states. -/
theorem C1_counterexample :
    ((generateMappingsFromApiData (.obj [("user", .obj [("id", .num (.int 1))])]) true).map
      (fun m => (m.apiField, m.gristColumn))) = [("user", "user"), ("user.id", "user_id")]
    ∧ ("user_id" : String) ≠ "api_id" :=
  ⟨rfl, by decide⟩

/-- C1 as amended: for every sample record, one mapping per path of
`extractAllKeys`, and the destination column is obtained by looking up
the FULL dotted path in the reserved-name table (`id → api_id`,
`createdAt → createdAt`, `updatedAt → updatedAt`); any other path gets
every `.` replaced by `_`.  Top-level keys can hit the table; nested
paths never do. -/
theorem C1_amended_full_path_lookup (sample : JsValue) (d : Bool) :
    (generateMappingsFromApiData sample d).map (fun m => (m.apiField, m.gristColumn, m.enabled)) =
      (if isObjectLike sample then extractAllKeys sample "" 5 else []).map (fun p =>
        (p, (if p = "id" then "api_id"
             else if p = "createdAt" then "createdAt"
             else if p = "updatedAt" then "updatedAt"
             else replaceDots p '_'), some d)) := by
  cases ho : isObjectLike sample with
  | false => simp [generateMappingsFromApiData, ho]
  | true =>
      simp only [generateMappingsFromApiData, ho, Bool.not_true, Bool.false_eq_true,
        if_false, if_true, List.map_map]
      refine List.map_congr_left ?_
      intro p _
      simp [Function.comp, criticalColumns_lookup p]

theorem listIsPrefix_of_append {p q l : List Char}
    (h : listIsPrefix (p ++ q) l = true) : listIsPrefix p l = true := by
  induction p generalizing l with
  | nil => rfl
  | cons a as ih =>
      cases l with
      | nil => simp [listIsPrefix] at h
      | cons b bs =>
          simp only [List.cons_append, listIsPrefix, Bool.and_eq_true] at h ⊢
          exact ⟨h.1, ih h.2⟩

theorem findHttpStatusAux_contains {cs : List Char} {n : Nat}
    (h : findHttpStatusAux cs = some n) : listContainsSub "HTTP".data cs = true := by
  induction cs with
  | nil => simp [findHttpStatusAux] at h
  | cons c rest ih =>
      by_cases hp : listIsPrefix "HTTP ".data (c :: rest) = true
      · have : listIsPrefix "HTTP".data (c :: rest) = true := by
          have : ("HTTP ".data : List Char) = "HTTP".data ++ [' '] := by decide
          exact listIsPrefix_of_append (by rw [← this]; exact hp)
        simp [listContainsSub, this]
      · rw [findHttpStatusAux, if_neg hp] at h
        simp [listContainsSub, ih h]

theorem findHttpStatus_includes {s : String} {n : Nat}
    (h : findHttpStatus s = some n) : strIncludes s "HTTP" = true :=
  findHttpStatusAux_contains h

theorem analyzeHttpError_type_ne_network (status : Nat) (e : JsError) (ctx : String) :
    (analyzeHttpError status e ctx).type ≠ ErrorType.network := by
  unfold analyzeHttpError
  split_ifs <;> simp

theorem analyzeErrorFallback_type_ne_network (e : JsError) :
    (analyzeErrorFallback e).type ≠ ErrorType.network := by
  unfold analyzeErrorFallback
  split_ifs <;> simp

/-- C4: when neither the CORS nor the network detector fires and the
message matches `HTTP <code>`, the classifier dispatches on the code
(401 unauthorized, 403 forbidden, 404 not-found, 422 unprocessable,
500/502/503/504 server-error, otherwise unknown); and concretely,
`"HTTP 404: not found"` under context `grist_sync` yields `not_found`
with the destination-specific document/table remediation wording, which
differs from the backend wording of context `api_fetch`. -/
theorem C4_http_status_dispatch (e : JsError) (ctx : String) (code : Nat)
    (hc : isCorsError e = false) (hn : isNetworkError e = false)
    (hs : findHttpStatus e.message = some code) :
    (analyzeError e ctx).type =
      (if code = 401 then ErrorType.unauthorized
       else if code = 403 then ErrorType.forbidden
       else if code = 404 then ErrorType.notFound
       else if code = 422 then ErrorType.unprocessable
       else if code = 500 ∨ code = 502 ∨ code = 503 ∨ code = 504 then ErrorType.serverError
       else ErrorType.unknown)
    ∧ (analyzeError ⟨"Error", "HTTP 404: not found", none⟩ "grist_sync").type =
        ErrorType.notFound
    ∧ (analyzeError ⟨"Error", "HTTP 404: not found", none⟩ "grist_sync").solutions.headD "" =
        "✓ Vérifiez que le Document ID est correct (dans l'URL Grist)"
    ∧ (analyzeError ⟨"Error", "HTTP 404: not found", none⟩ "api_fetch").solutions.headD "" =
        "✓ Vérifiez que l'URL du backend est correcte"
    ∧ ("✓ Vérifiez que le Document ID est correct (dans l'URL Grist)" : String) ≠
        "✓ Vérifiez que l'URL du backend est correcte" := by
  refine ⟨?_, by decide, by decide, by decide, by decide⟩
  rw [analyzeError]
  rw [if_neg (by simp [hc]), if_neg (by simp [hn]),
    if_pos (by simp [findHttpStatus_includes hs]), hs]
  show (analyzeHttpError code e ctx).type = _
  unfold analyzeHttpError
  split_ifs <;> rfl

/-- Witness for C4 at a concrete error and status code. -/
theorem C4_witness :
    isCorsError ⟨"Error", "a HTTP 503: down", none⟩ = false
    ∧ isNetworkError ⟨"Error", "a HTTP 503: down", none⟩ = false
    ∧ findHttpStatus "a HTTP 503: down" = some 503
    ∧ (analyzeError ⟨"Error", "a HTTP 503: down", none⟩ "general").type =
        ErrorType.serverError :=
  ⟨by decide, by decide, by decide,
    ((C4_http_status_dispatch ⟨"Error", "a HTTP 503: down", none⟩ "general" 503
      (by decide) (by decide) (by decide)).1).trans (by decide)⟩

/-- C5: the classifier tests the cross-origin detector before the
network detector: whenever `isCorsError` fires — in particular for
every fetch-failure-shaped error, a `TypeError` whose message is
"failed to fetch" or "network request failed" — the result kind is
`cors`, never `network`; and the `network` kind is produced only when
the cross-origin detector did not fire and the network detector did. -/
theorem C5_cors_checked_before_network (e : JsError) (ctx : String) :
    (isCorsError e = true → (analyzeError e ctx).type = ErrorType.cors)
    ∧ (e.name = "TypeError" →
        (strIncludes (strToLower e.message) "failed to fetch" = true ∨
         strIncludes (strToLower e.message) "network request failed" = true) →
        (analyzeError e ctx).type = ErrorType.cors)
    ∧ ((analyzeError e ctx).type = ErrorType.network →
        isCorsError e = false ∧ isNetworkError e = true) := by
  refine ⟨?_, ?_, ?_⟩
  · intro h
    rw [analyzeError, if_pos (by simp [h])]
  · intro hname hmsg
    have hcors : isCorsError e = true := by
      rcases hmsg with h | h <;> simp [isCorsError, hname, h]
    rw [analyzeError, if_pos (by simp [hcors])]
  · intro h
    by_cases hc : isCorsError e = true
    · rw [analyzeError, if_pos (by simp [hc])] at h
      simp at h
    · by_cases hn : isNetworkError e = true
      · exact ⟨by simpa using hc, hn⟩
      · exfalso
        rw [analyzeError, if_neg (by simpa using hc), if_neg (by simpa using hn)] at h
        by_cases hH : strIncludes e.message "HTTP" = true
        · rw [if_pos (by simp [hH])] at h
          cases hS : findHttpStatus e.message with
          | some status =>
              rw [hS] at h
              exact analyzeHttpError_type_ne_network status e ctx h
          | none =>
              rw [hS] at h
              exact analyzeErrorFallback_type_ne_network e h
        · rw [if_neg (by simpa using hH)] at h
          exact analyzeErrorFallback_type_ne_network e h

/-- Witness for C5 at a concrete fetch-failure-shaped error. -/
theorem C5_witness :
    (JsError.mk "TypeError" "Failed to fetch" none).name = "TypeError"
    ∧ strIncludes (strToLower "Failed to fetch") "failed to fetch" = true
    ∧ (analyzeError ⟨"TypeError", "Failed to fetch", none⟩ "api_fetch").type =
        ErrorType.cors :=
  ⟨rfl, by decide,
    (C5_cors_checked_before_network ⟨"TypeError", "Failed to fetch", none⟩ "api_fetch").2.1
      rfl (Or.inl (by decide))⟩

theorem foldl_insert_mem (c : String) :
    ∀ (l acc : List String),
      c ∈ l.foldl (fun acc k => if k ∈ acc then acc else acc ++ [k]) acc ↔ c ∈ acc ∨ c ∈ l := by
  intro l
  induction l with
  | nil => intro acc; simp
  | cons k rest ih =>
      intro acc
      rw [List.foldl_cons, ih]
      by_cases hk : k ∈ acc
      · simp only [if_pos hk, List.mem_cons]
        constructor
        · rintro (h | h)
          · exact Or.inl h
          · exact Or.inr (Or.inr h)
        · rintro (h | h | h)
          · exact Or.inl h
          · exact Or.inl (h ▸ hk)
          · exact Or.inr h
      · simp only [if_neg hk, List.mem_append, List.mem_singleton, List.mem_cons]
        tauto

theorem foldl_insert_nodup :
    ∀ (l acc : List String), acc.Nodup →
      (l.foldl (fun acc k => if k ∈ acc then acc else acc ++ [k]) acc).Nodup := by
  intro l
  induction l with
  | nil => intro acc h; simpa using h
  | cons k rest ih =>
      intro acc h
      rw [List.foldl_cons]
      by_cases hk : k ∈ acc
      · rw [if_pos hk]; exact ih acc h
      · rw [if_neg hk]
        exact ih (acc ++ [k]) (by simp [List.nodup_append, h, hk])

theorem dedupKeys_mem (records : List RowRecord) (c : String) :
    c ∈ dedupKeys records ↔ ∃ r ∈ records, c ∈ r.map Prod.fst := by
  rw [dedupKeys, foldl_insert_mem]
  simp [List.mem_flatten]

theorem dedupKeys_nodup (records : List RowRecord) : (dedupKeys records).Nodup :=
  foldl_insert_nodup _ [] List.nodup_nil

theorem missingColumns_mem (records : List RowRecord) (existing : List GristColumn)
    (c : String) :
    c ∈ missingColumns records existing ↔
      ((∃ r ∈ records, c ∈ r.map Prod.fst) ∧
        c ∉ existing.map (fun col => col.fields.colId)) := by
  rw [missingColumns, List.mem_filter]
  simp [dedupKeys_mem, List.elem_iff]

theorem missingColumns_nodup (records : List RowRecord) (existing : List GristColumn) :
    (missingColumns records existing).Nodup :=
  (dedupKeys_nodup records).filter _

theorem inferColumnTypeGo_ne_empty (cname : String) :
    ∀ l : List RowRecord, inferColumnTypeGo cname l ≠ "" := by
  intro l
  induction l with
  | nil => simp [inferColumnTypeGo]
  | cons r rest ih =>
      cases h : (assocLookup r cname).getD JsValue.undef with
      | null => simpa [inferColumnTypeGo, h] using ih
      | undef => simpa [inferColumnTypeGo, h] using ih
      | bool b => simp [inferColumnTypeGo, h]
      | num n => cases n <;> simp [inferColumnTypeGo, h]
      | str s =>
          simp only [inferColumnTypeGo, h]
          split_ifs <;> simp
      | date iso => simp [inferColumnTypeGo, h]
      | arr xs => simp [inferColumnTypeGo, h]
      | obj fields => simp [inferColumnTypeGo, h]

theorem inferColumnType_ne_empty (records : List RowRecord) (cname : String) :
    inferColumnType records cname ≠ "" :=
  inferColumnTypeGo_ne_empty cname _

theorem inferColumnTypeGo_int (cname : String) :
    ∀ l : List RowRecord,
      (∀ r ∈ l, ((assocLookup r cname).getD JsValue.undef = .undef ∨
        (assocLookup r cname).getD JsValue.undef = .null ∨
        ∃ i, (assocLookup r cname).getD JsValue.undef = .num (.int i))) →
      (∃ r ∈ l, ∃ i, (assocLookup r cname).getD JsValue.undef = .num (.int i)) →
      inferColumnTypeGo cname l = "Int" := by
  intro l
  induction l with
  | nil => rintro _ ⟨r, hr, _⟩; simp at hr
  | cons r rest ih =>
      rintro hall ⟨r', hr', i, hi⟩
      rcases hall r (by simp) with h | h | ⟨j, h⟩
      · rw [inferColumnTypeGo, h]
        rcases List.mem_cons.mp hr' with rfl | hmem
        · rw [h] at hi; cases hi
        · exact ih (fun x hx => hall x (by simp [hx])) ⟨r', hmem, i, hi⟩
      · rw [inferColumnTypeGo, h]
        rcases List.mem_cons.mp hr' with rfl | hmem
        · rw [h] at hi; cases hi
        · exact ih (fun x hx => hall x (by simp [hx])) ⟨r', hmem, i, hi⟩
      · rw [inferColumnTypeGo, h]

theorem orElseStr_some_self (s : String) : orElseStr (some s) s = s := by
  simp [orElseStr]

theorem columnsToCreate_req (env : NetEnv) (records : List RowRecord)
    (missing : List String) (hm : missing ≠ []) :
    (addColumnsOp env (columnsToCreate records missing)).calls =
      [ApiCall.addColumns (missing.map (fun id =>
        AddColReq.mk id id id (inferColumnType records id)))] := by
  have hne : columnsToCreate records missing ≠ [] := by
    simp [columnsToCreate, hm]
  have hreq : (columnsToCreate records missing).map (fun c =>
      AddColReq.mk c.id c.id (orElseStr c.label c.id) (orElseStr c.type "Text")) =
      missing.map (fun id => AddColReq.mk id id id (inferColumnType records id)) := by
    rw [columnsToCreate, List.map_map]
    refine List.map_congr_left fun id _ => ?_
    simp [Function.comp, orElseStr, inferColumnType_ne_empty records id]
  rw [addColumnsOp, if_neg hne]
  cases env.addColumnsR <;> simp [hreq]

theorem ensure_outcome_ok (env : NetEnv) (records : List RowRecord) :
    (ensureColumnsExist env records).outcome = Except.ok () := by
  rw [ensureColumnsExist]
  by_cases hr : records.isEmpty
  · rw [if_pos hr]
  · rw [if_neg hr]
    cases hg : (getColumnsOp env).outcome with
    | error e => simp only [hg]
    | ok cols =>
        simp only [hg]
        split_ifs with hm
        · rfl
        · cases ha : (addColumnsOp env
              (columnsToCreate records (missingColumns records cols))).outcome with
          | ok u => simp only [ha]
          | error e => simp only [ha]

theorem addRecords_calls (env : NetEnv) (cfg : GristConfig) (records : List RowRecord)
    (hne : records ≠ []) :
    (addRecords env cfg records).calls =
      (if cfg.autoCreateColumns ≠ some false then (ensureColumnsExist env records).calls
       else []) ++ [ApiCall.postRecords records] := by
  have hr : ¬(records.isEmpty = true) := by
    cases records with
    | nil => exact absurd rfl hne
    | cons a l => simp
  rw [addRecords, if_neg hr]
  by_cases hauto : cfg.autoCreateColumns ≠ some false
  · simp only [if_pos hauto]
    rw [ensure_outcome_ok env records]
    cases hp : env.postRecordsR <;> simp [hp]
  · simp only [if_neg hauto]
    cases hp : env.postRecordsR <;> simp [hp]

theorem addRecords_outcome (env : NetEnv) (cfg : GristConfig) (records : List RowRecord)
    (hne : records ≠ []) :
    (addRecords env cfg records).outcome =
      match env.postRecordsR with
      | Except.ok ids => Except.ok ids
      | Except.error e =>
          Except.error ⟨"Error", classifiedShortMessage (analyzeError e "grist_sync"), none⟩ := by
  have hr : ¬(records.isEmpty = true) := by
    cases records with
    | nil => exact absurd rfl hne
    | cons a l => simp
  rw [addRecords, if_neg hr]
  by_cases hauto : cfg.autoCreateColumns ≠ some false
  · simp only [if_pos hauto]
    rw [ensure_outcome_ok env records]
    cases hp : env.postRecordsR <;> simp [hp]
  · simp only [if_neg hauto]
    cases hp : env.postRecordsR <;> simp [hp]

/-- C2: `ensureColumnsExist` never raises (outcome is always `ok`, any
internal failure becomes a warning log); with a successful column
listing it issues exactly one creation call containing exactly the
missing ids (keys appearing in some record and absent from the
existing column ids, without duplicates), each typed by
`inferColumnType`; a column of integer-valued samples among the first
10 records gets type `Int`; and the insertion POST of `addRecords`
happens regardless of this step's environment. -/
theorem C2_ensure_columns_best_effort (env : NetEnv) (records : List RowRecord) :
    (ensureColumnsExist env records).outcome = Except.ok ()
    ∧ (∀ cols, env.getColumnsR = Except.ok cols → records ≠ [] →
        (ensureColumnsExist env records).calls =
          (if missingColumns records cols = [] then [ApiCall.getColumns]
           else [ApiCall.getColumns,
             ApiCall.addColumns ((missingColumns records cols).map (fun id =>
               AddColReq.mk id id id (inferColumnType records id)))]))
    ∧ (∀ cols c, c ∈ missingColumns records cols ↔
        ((∃ r ∈ records, c ∈ r.map Prod.fst) ∧ c ∉ cols.map (fun col => col.fields.colId)))
    ∧ (∀ cols : List GristColumn, (missingColumns records cols).Nodup)
    ∧ (∀ c,
        (∀ r ∈ records.take 10, ((assocLookup r c).getD JsValue.undef = .undef ∨
          (assocLookup r c).getD JsValue.undef = .null ∨
          ∃ i, (assocLookup r c).getD JsValue.undef = .num (.int i))) →
        (∃ r ∈ records.take 10, ∃ i, (assocLookup r c).getD JsValue.undef = .num (.int i)) →
        inferColumnType records c = "Int")
    ∧ (∀ cfg, records ≠ [] →
        ApiCall.postRecords records ∈ (addRecords env cfg records).calls) := by
  refine ⟨ensure_outcome_ok env records, ?_, ?_, ?_, ?_, ?_⟩
  · intro cols hg hne
    have hr : ¬(records.isEmpty = true) := by
      cases records with
      | nil => exact absurd rfl hne
      | cons a l => simp
    have hget : getColumnsOp env = ⟨[ApiCall.getColumns], [], Except.ok cols⟩ := by
      rw [getColumnsOp, hg]
    rw [ensureColumnsExist, if_neg hr]
    simp only [hget]
    by_cases hm : missingColumns records cols = []
    · rw [if_pos hm, if_pos hm]
    · rw [if_neg hm, if_neg hm]
      cases ha : (addColumnsOp env
          (columnsToCreate records (missingColumns records cols))).outcome with
      | ok u =>
          simp only [ha]
          rw [columnsToCreate_req env records _ hm]
          rfl
      | error e =>
          simp only [ha]
          rw [columnsToCreate_req env records _ hm]
          rfl
  · intro cols c
    exact missingColumns_mem records cols c
  · intro cols
    exact missingColumns_nodup records cols
  · intro c h1 h2
    exact inferColumnTypeGo_int c (records.take 10) h1 h2
  · intro cfg hne
    rw [addRecords_calls env cfg records hne]
    simp

/-- Witness for C2 at the spec scenario: existing column `id`, records
introducing keys `id` and `score` with whole-number scores; exactly one
creation call containing only `score`, typed `Int`. -/
theorem C2_witness :
    c2Env.getColumnsR = Except.ok [⟨"id", ⟨some "id", some "Int", "id"⟩⟩]
    ∧ c2Records ≠ []
    ∧ (ensureColumnsExist c2Env c2Records).calls =
        [ApiCall.getColumns, ApiCall.addColumns [⟨"score", "score", "score", "Int"⟩]] :=
  ⟨rfl, by simp [c2Records],
    ((C2_ensure_columns_best_effort c2Env c2Records).2.1
        [⟨"id", ⟨some "id", some "Int", "id"⟩⟩] rfl (by simp [c2Records])).trans (by rfl)⟩

/-- C6: `addRecords` on an empty list throws the empty-input error
without issuing any network call; on a non-empty list with
`autoCreateColumns` not `false`, the column step's calls precede the
POST; and the POST outcome is the response on success and, on failure,
an error carrying the classifier's message joined with the first
remediation step (never the raw transport message alone). -/
theorem C6_addRecords_contract (env : NetEnv) (cfg : GristConfig) (records : List RowRecord) :
    ((addRecords env cfg []).outcome =
        Except.error ⟨"Error", "Aucun enregistrement à ajouter", none⟩
      ∧ (addRecords env cfg []).calls = [])
    ∧ (records ≠ [] → cfg.autoCreateColumns ≠ some false →
        (addRecords env cfg records).calls =
          (ensureColumnsExist env records).calls ++ [ApiCall.postRecords records])
    ∧ (records ≠ [] → ∀ e, env.postRecordsR = Except.error e →
        (addRecords env cfg records).outcome =
          Except.error ⟨"Error",
            (analyzeError e "grist_sync").message ++ " - " ++
              (analyzeError e "grist_sync").solutions.headD "", none⟩) := by
  refine ⟨⟨rfl, rfl⟩, ?_, ?_⟩
  · intro hne hauto
    rw [addRecords_calls env cfg records hne, if_pos hauto]
  · intro hne e hp
    rw [addRecords_outcome env cfg records hne, hp]
    rfl

/-- Witness for C6 at a concrete environment, configuration and record
list whose POST fails with an HTTP 500. -/
theorem C6_witness :
    (c6Records ≠ [] ∧ (⟨"d", "t", none, none, none⟩ : GristConfig).autoCreateColumns ≠ some false
      ∧ (addRecords c6Env ⟨"d", "t", none, none, none⟩ c6Records).calls =
          (ensureColumnsExist c6Env c6Records).calls ++ [ApiCall.postRecords c6Records])
    ∧ c6Env.postRecordsR = Except.error ⟨"Error", "Erreur HTTP 500: boom", none⟩
    ∧ (addRecords c6Env ⟨"d", "t", none, none, none⟩ c6Records).outcome =
        Except.error ⟨"Error",
          "Le serveur a rencontré une erreur - ✓ Réessayez dans quelques instants", none⟩ :=
  ⟨⟨by simp [c6Records], by simp,
    (C6_addRecords_contract c6Env ⟨"d", "t", none, none, none⟩ c6Records).2.1
      (by simp [c6Records]) (by simp)⟩,
   rfl,
   ((C6_addRecords_contract c6Env ⟨"d", "t", none, none, none⟩ c6Records).2.2
      (by simp [c6Records]) ⟨"Error", "Erreur HTTP 500: boom", none⟩ rfl).trans (by rfl)⟩

/-- Counterexample to C3: on a failure, `getRecords` re-raises the
classifier's message JOINED with the first remediation step (exactly
like `addRecords`), not the classifier's message alone. -/
theorem C3_counterexample :
    (getRecordsOp c3FailureEnv none).outcome =
      Except.error ⟨"Error",
        "Document, table ou URL introuvable - ✓ Vérifiez que le Document ID est correct (dans l'URL Grist)",
        none⟩
    ∧ ("Document, table ou URL introuvable - ✓ Vérifiez que le Document ID est correct (dans l'URL Grist)" : String) ≠
        (analyzeError ⟨"Error", "Erreur HTTP 404: not found", none⟩ "grist_sync").message :=
  ⟨rfl, by decide⟩

/-- C3 as amended: on every failure `getRecords` re-raises an error
whose message is the classifier's message joined with the first
remediation step — the same format as `addRecords` — and it emits no
log line (on failure or success). -/
theorem C3_amended_joined_message_no_logs (env : NetEnv) (limit : Option Nat) :
    (getRecordsOp env limit).logs = []
    ∧ (∀ e, env.getRecordsR = Except.error e →
        (getRecordsOp env limit).outcome =
          Except.error ⟨"Error",
            (analyzeError e "grist_sync").message ++ " - " ++
              (analyzeError e "grist_sync").solutions.headD "", none⟩)
    ∧ (∀ payload, env.getRecordsR = Except.ok payload →
        (getRecordsOp env limit).outcome = Except.ok (payload.getD [])) := by
  refine ⟨?_, ?_, ?_⟩
  · rw [getRecordsOp]
    cases hg : env.getRecordsR <;> rfl
  · intro e hg
    rw [getRecordsOp, hg]
    rfl
  · intro payload hg
    rw [getRecordsOp, hg]

/-- Witness for C3 (amended) at a concrete failing environment. -/
theorem C3_witness :
    c3WitnessEnv.getRecordsR = Except.error ⟨"Error", "timeout hit", none⟩
    ∧ (getRecordsOp c3WitnessEnv (some 5)).outcome =
        Except.error ⟨"Error",
          "Le serveur met trop de temps à répondre - ✓ Vérifiez que le serveur fonctionne correctement",
          none⟩ :=
  ⟨rfl,
    ((C3_amended_joined_message_no_logs c3WitnessEnv (some 5)).2.1
      ⟨"Error", "timeout hit", none⟩ rfl).trans (by rfl)⟩

theorem exists_ok_bind {ε α β : Type} {x : Except ε α} {f : α → Except ε β}
    (hx : ∃ a, x = Except.ok a) (hf : ∀ a, ∃ b, f a = Except.ok b) :
    ∃ b, (x >>= f) = Except.ok b := by
  obtain ⟨a, ha⟩ := hx
  obtain ⟨b, hb⟩ := hf a
  subst ha
  exact ⟨b, hb⟩

theorem exists_ok_ite {ε α : Type} {c : Prop} [Decidable c] {x y : Except ε α}
    (hx : c → ∃ a, x = Except.ok a) (hy : ¬c → ∃ a, y = Except.ok a) :
    ∃ a, (if c then x else y) = Except.ok a := by
  by_cases hc : c
  · simpa [hc] using hx hc
  · simpa [hc] using hy hc

theorem stringifyFieldsWith_ok (g : HVal → Except String (Option String)) :
    ∀ fields : List (String × HVal),
      (∀ kv ∈ fields, ∃ r, g kv.2 = Except.ok r) →
      ∃ rs, stringifyFieldsWith g fields = Except.ok rs := by
  intro fields
  induction fields with
  | nil => intro _; exact ⟨[], rfl⟩
  | cons kv rest ih =>
      intro hall
      obtain ⟨r, hr⟩ := hall kv (by simp)
      obtain ⟨rs, hrs⟩ := ih (fun x hx => hall x (by simp [hx]))
      rcases kv with ⟨k, v⟩
      exact exists_ok_bind ⟨r, hr⟩ (fun sv =>
        exists_ok_bind ⟨rs, hrs⟩ (fun rp => by
          cases sv with
          | some sv => exact ⟨_, rfl⟩
          | none => exact ⟨_, rfl⟩))

theorem stringifyElemsWith_ok (g : HVal → Except String (Option String)) :
    ∀ xs : List HVal,
      (∀ x ∈ xs, ∃ r, g x = Except.ok r) →
      ∃ rs, stringifyElemsWith g xs = Except.ok rs := by
  intro xs
  induction xs with
  | nil => intro _; exact ⟨[], rfl⟩
  | cons x rest ih =>
      intro hall
      obtain ⟨r, hr⟩ := hall x (by simp)
      obtain ⟨rs, hrs⟩ := ih (fun y hy => hall y (by simp [hy]))
      exact exists_ok_bind ⟨r, hr⟩ (fun sv =>
        exists_ok_bind ⟨rs, hrs⟩ (fun rest' => ⟨_, rfl⟩))

theorem jsonStringifyH_ok (h : Heap) (rank : Nat → Nat)
    (hedge : ∀ a node, h.get? a = some node → ∀ b ∈ nodeRefs node, rank b < rank a) :
    ∀ (fuel : Nat) (seen : List Nat) (v : HVal),
      (∀ a ∈ valRefs v, rank a < fuel ∧ ∀ s ∈ seen, rank a < rank s) →
      ∃ r, jsonStringifyH h fuel seen v = Except.ok r := by
  intro fuel
  induction fuel with
  | zero =>
      intro seen v hc
      cases v with
      | ref a => exact absurd (hc a (by simp [valRefs])).1 (by omega)
      | null => exact ⟨_, rfl⟩
      | undef => exact ⟨_, rfl⟩
      | bool b => exact ⟨_, rfl⟩
      | num n => exact ⟨_, rfl⟩
      | str s => exact ⟨_, rfl⟩
  | succ f ih =>
      intro seen v hc
      cases v with
      | null => exact ⟨_, rfl⟩
      | undef => exact ⟨_, rfl⟩
      | bool b => exact ⟨_, rfl⟩
      | num n => exact ⟨_, rfl⟩
      | str s => exact ⟨_, rfl⟩
      | ref a =>
          obtain ⟨hfa, hseen⟩ := hc a (by simp [valRefs])
          have hnot : a ∉ seen := fun hs => absurd (hseen a hs) (lt_irrefl _)
          simp only [jsonStringifyH, if_neg hnot]
          cases hga : h.get? a with
          | none => exact ⟨_, rfl⟩
          | some node =>
              cases node with
              | date iso => exact ⟨_, rfl⟩
              | obj fields =>
                  have hkids : ∀ kv ∈ fields, ∃ r,
                      (fun w => jsonStringifyH h f (a :: seen) w) kv.2 = Except.ok r := by
                    intro kv hkv
                    apply ih (a :: seen) kv.2
                    intro b hb
                    have hbn : b ∈ nodeRefs (HNode.obj fields) := by
                      simp only [nodeRefs, List.mem_flatten, List.mem_map]
                      exact ⟨valRefs kv.2, ⟨kv, hkv, rfl⟩, hb⟩
                    have hba : rank b < rank a := hedge a _ hga b hbn
                    refine ⟨by omega, fun s hs => ?_⟩
                    rcases List.mem_cons.mp hs with rfl | hs'
                    · exact hba
                    · exact hba.trans (hseen s hs')
                  exact exists_ok_bind
                    (stringifyFieldsWith_ok (fun w => jsonStringifyH h f (a :: seen) w)
                      fields hkids)
                    (fun parts => ⟨_, rfl⟩)
              | arr xs =>
                  have hkids : ∀ x ∈ xs, ∃ r,
                      (fun w => jsonStringifyH h f (a :: seen) w) x = Except.ok r := by
                    intro x hx
                    apply ih (a :: seen) x
                    intro b hb
                    have hbn : b ∈ nodeRefs (HNode.arr xs) := by
                      simp only [nodeRefs, List.mem_flatten, List.mem_map]
                      exact ⟨valRefs x, ⟨x, hx, rfl⟩, hb⟩
                    have hba : rank b < rank a := hedge a _ hga b hbn
                    refine ⟨by omega, fun s hs => ?_⟩
                    rcases List.mem_cons.mp hs with rfl | hs'
                    · exact hba
                    · exact hba.trans (hseen s hs')
                  exact exists_ok_bind
                    (stringifyElemsWith_ok (fun w => jsonStringifyH h f (a :: seen) w)
                      xs hkids)
                    (fun parts => ⟨_, rfl⟩)

theorem serializeItemH_ok (h : Heap) (rank : Nat → Nat)
    (hedge : ∀ a node, h.get? a = some node → ∀ b ∈ nodeRefs node, rank b < rank a)
    (hbound : ∀ a, rank a ≤ h.length) (item : HVal) :
    ∃ r, serializeItemH h item = Except.ok r := by
  have hroot : ∀ b : Nat, ∀ a ∈ valRefs (HVal.ref b),
      rank a < h.length + 1 ∧ ∀ s ∈ ([] : List Nat), rank a < rank s := by
    intro b a ha
    simp only [valRefs, List.mem_singleton] at ha
    subst ha
    exact ⟨by have := hbound a; omega, by simp⟩
  cases item with
  | null => exact ⟨_, rfl⟩
  | undef => exact ⟨_, rfl⟩
  | bool b => exact ⟨_, rfl⟩
  | num n => exact ⟨_, rfl⟩
  | str s => exact ⟨_, rfl⟩
  | ref b =>
      simp only [serializeItemH]
      cases hgb : h.get? b with
      | none => exact ⟨_, rfl⟩
      | some node =>
          cases node with
          | date iso => exact ⟨_, rfl⟩
          | obj fields =>
              obtain ⟨r, hr⟩ :=
                jsonStringifyH_ok h rank hedge (h.length + 1) [] (.ref b) (hroot b)
              exact ⟨_, by rw [hr]⟩
          | arr xs =>
              obtain ⟨r, hr⟩ :=
                jsonStringifyH_ok h rank hedge (h.length + 1) [] (.ref b) (hroot b)
              exact ⟨_, by rw [hr]⟩

theorem serializeItemsH_ok (h : Heap) (rank : Nat → Nat)
    (hedge : ∀ a node, h.get? a = some node → ∀ b ∈ nodeRefs node, rank b < rank a)
    (hbound : ∀ a, rank a ≤ h.length) :
    ∀ xs : List HVal, ∃ rs, serializeItemsH h xs = Except.ok rs := by
  intro xs
  induction xs with
  | nil => exact ⟨[], rfl⟩
  | cons x rest ih =>
      exact exists_ok_bind (serializeItemH_ok h rank hedge hbound x) (fun r =>
        exists_ok_bind ih (fun rs => ⟨_, rfl⟩))

/-- Counterexample to C9: `serializeValue` is not total over any input:
on a self-referential object (here an object whose field `self` points
back to itself), `JSON.stringify`'s circular-structure error
propagates, i.e. the function throws. -/
theorem C9_counterexample :
    serializeValueH cyclicHeap (HVal.ref 0) =
      Except.error "Converting circular structure to JSON" := rfl

/-- C9 as amended: `serializeValue` has no side effects and, on every
value whose reachable object graph is acyclic (witnessed by a rank
function decreasing along references and bounded by the heap size), it
returns a result without throwing; only cyclic (self-referential)
structures make it throw, via `JSON.stringify`'s circular-structure
check. -/
theorem C9_amended_total_on_acyclic (h : Heap) (rank : Nat → Nat)
    (hedge : ∀ a node, h.get? a = some node → ∀ b ∈ nodeRefs node, rank b < rank a)
    (hbound : ∀ a, rank a ≤ h.length) (v : HVal) :
    ∃ r, serializeValueH h v = Except.ok r := by
  have hroot : ∀ b : Nat, ∀ a ∈ valRefs (HVal.ref b),
      rank a < h.length + 1 ∧ ∀ s ∈ ([] : List Nat), rank a < rank s := by
    intro b a ha
    simp only [valRefs, List.mem_singleton] at ha
    subst ha
    exact ⟨by have := hbound a; omega, by simp⟩
  cases v with
  | null => exact ⟨_, rfl⟩
  | undef => exact ⟨_, rfl⟩
  | bool b => exact ⟨_, rfl⟩
  | num n => exact ⟨_, rfl⟩
  | str s => exact ⟨_, rfl⟩
  | ref a =>
      simp only [serializeValueH]
      cases hga : h.get? a with
      | none => exact ⟨_, rfl⟩
      | some node =>
          cases node with
          | date iso => exact ⟨_, rfl⟩
          | arr xs =>
              exact exists_ok_ite (fun _ => ⟨_, rfl⟩) (fun _ =>
                exists_ok_bind (serializeItemsH_ok h rank hedge hbound xs)
                  (fun parts => ⟨_, rfl⟩))
          | obj fields =>
              exact exists_ok_bind
                (jsonStringifyH_ok h rank hedge (h.length + 1) [] (.ref a) (hroot a))
                (fun r => ⟨_, rfl⟩)

/-- Witness for C9 (amended) at a concrete acyclic two-node heap. -/
theorem C9_witness :
    (∀ a node, acyclicHeap.get? a = some node →
      ∀ b ∈ nodeRefs node, acyclicRank b < acyclicRank a)
    ∧ (∀ a, acyclicRank a ≤ acyclicHeap.length)
    ∧ ∃ r, serializeValueH acyclicHeap (HVal.ref 0) = Except.ok r := by
  have hedge : ∀ a node, acyclicHeap.get? a = some node →
      ∀ b ∈ nodeRefs node, acyclicRank b < acyclicRank a := by
    intro a node hget b hb
    cases a with
    | zero =>
        simp only [acyclicHeap, List.get?] at hget
        cases hget
        simp only [nodeRefs, valRefs, List.map_cons, List.map_nil, List.flatten,
          List.mem_append, List.mem_singleton, List.not_mem_nil, or_false,
          List.append_nil] at hb
        subst hb
        decide
    | succ n =>
        cases n with
        | zero =>
            simp only [acyclicHeap, List.get?] at hget
            cases hget
            simp [nodeRefs, valRefs] at hb
        | succ m =>
            simp [acyclicHeap, List.get?] at hget
  have hbound : ∀ a, acyclicRank a ≤ acyclicHeap.length := by
    intro a
    by_cases ha : a = 0 <;> simp [acyclicRank, acyclicHeap, ha]
  exact ⟨hedge, hbound,
    C9_amended_total_on_acyclic acyclicHeap acyclicRank hedge hbound (HVal.ref 0)⟩

end GristSync



